import Mathlib

/-!
A shallow embedding of the lax argument expander, translated from src/lib.rs
of the repository Property404/lax.

The library code is pure string manipulation plus interaction with the
filesystem, the process working directory, and four external crates
(globset, regex, walkdir, shellexpand).  Everything that lives in lib.rs is
translated definition by definition below; the external pieces (glob
compilation, regex compilation, the directory walker, tilde expansion, path
join, metadata queries) are abstracted as an explicit environment of
functions, and the process working directory is threaded as explicit state.
Machine integer overflow of selector indices is not modelled: selector
numbers are mathematical integers.
-/

/-! ### Basic character-list helpers used by the translation

Rust string methods (split, splitn, trim, strip_prefix, parse) are
implemented over the character data of a string so that definitional
evaluation in the kernel is possible.
-/

/-- Rust str::split for a one-character separator: always yields at least one
(possibly empty) piece. -/
def splitOnChar (sep : Char) : List Char → List (List Char)
  | [] => [[]]
  | c :: cs =>
    if c = sep then [] :: splitOnChar sep cs
    else
      match splitOnChar sep cs with
      | [] => [[c]]
      | t :: ts => (c :: t) :: ts

/-- Rust str::splitn(2, sep): split at the first occurrence of sep, returning
the part before it and, when sep occurs, the whole remainder after it. -/
def splitFirstOn (sep : List Char) : List Char → List Char × Option (List Char)
  | [] => ([], none)
  | c :: cs =>
    if sep.isPrefixOf (c :: cs) then ([], some ((c :: cs).drop sep.length))
    else
      let r := splitFirstOn sep cs
      (c :: r.1, r.2)

/-- Rust str::trim: drop whitespace from both ends. -/
def trimChars (l : List Char) : List Char :=
  ((l.dropWhile Char.isWhitespace).reverse.dropWhile Char.isWhitespace).reverse

/-- Rust str::starts_with for a string argument. -/
def startsWithStr (pre s : String) : Bool :=
  pre.data.isPrefixOf s.data

/-- Rust str::strip_prefix, keeping the string unchanged when the given text
is not a prefix of it. -/
def stripPrefixStr (pre s : String) : String :=
  if pre.data.isPrefixOf s.data then String.mk (s.data.drop pre.data.length) else s

/-- Digit accumulation for integer parsing: all characters must be ASCII
digits and there must be at least one. -/
def digitsVal : List Char → Nat → Option Nat
  | [], acc => some acc
  | c :: cs, acc =>
    if c.isDigit then digitsVal cs (acc * 10 + (c.toNat - '0'.toNat)) else none

/-- Rust str::parse::<isize>: an optional sign followed by one or more
digits.  Overflow is not modelled. -/
def parseInt? (l : List Char) : Option Int :=
  match l with
  | '+' :: rest => if rest.isEmpty then none else (digitsVal rest 0).map Int.ofNat
  | '-' :: rest => if rest.isEmpty then none else (digitsVal rest 0).map (fun n => -(Int.ofNat n))
  | [] => none
  | rest => (digitsVal rest 0).map Int.ofNat

/-! ### Data model (lib.rs lines 30 to 40 and 429 to 450) -/

/-- One selector, lib.rs lines 30 to 36. -/
inductive Selector
  | All : Selector
  | FromFront : Nat → Selector
  | FromBack : Nat → Selector
  | Regex : String → Selector
deriving DecidableEq

/-- An ordered sequence of selectors, lib.rs lines 37 to 40. -/
structure SelectorGroup where
  selectors : List Selector
deriving DecidableEq

/-- Configuration record, lib.rs lines 429 to 439. -/
structure Config where
  match_with_dirs : Bool
  match_with_files : Bool
  transform_files_to_dirs : Bool
  search_hidden : Bool

/-- The Default implementation of Config, lib.rs lines 441 to 450. -/
def Config.default : Config :=
  { match_with_dirs := true
    match_with_files := true
    transform_files_to_dirs := false
    search_hidden := false }

/-- Result of a metadata query (std fs::Metadata, only the two predicates the
code reads). -/
structure Meta where
  isDir : Bool
  isFile : Bool
deriving DecidableEq

/-- One entry produced by the external directory walker (walkdir DirEntry).
The file name and full path can be unavailable for non-UTF-8 names, and the
metadata query can fail with an I/O error, exactly the cases lib.rs handles. -/
structure FsEntry where
  fileName : Option String
  pathName : Option String
  meta : Except String Meta

/-- The environment of external capabilities used by lib.rs: shellexpand
tilde expansion, std path join, existence and metadata queries, std
Path::parent, process chdir resolution, the walkdir walker (already composed
with its filter_entry predicate on file names), globset compilation and
regex compilation.  These are external crates or std, not repository code. -/
structure Env where
  tilde : String → String
  join : String → String → String
  pathExists : String → Bool
  parent : String → Option String
  chdir : String → String → String
  walk : String → (Option String → Bool) → List FsEntry
  globBuild : String → Except String (String → Bool)
  metadata : String → Except String Meta
  regexCompile : String → Except String (String → Bool)

/-! ### Selector algebra (lib.rs lines 42 to 92) -/

/-- The body of one iteration of the selection loop in lib.rs lines 46 to 71:
the empty-candidate check followed by the per-variant selection.  Regex
compilation is the external regex crate, abstracted as rc. -/
def applySelector (rc : String → Except String (String → Bool)) (s : Selector)
    (paths : List String) : Except String (List String) :=
  if paths.isEmpty then .error "No paths to select!"
  else
    match s with
    | .All => .ok paths
    | .FromFront o =>
      if h : paths.length ≤ o then
        .error ("Selector index out of range: " ++ toString (o + 1))
      else .ok [paths.get ⟨o, by omega⟩]
    | .FromBack o =>
      if h : paths.length ≤ o then
        .error ("Selector index out of range: -" ++ toString (o + 1))
      else .ok [paths.get ⟨paths.length - 1 - o, by omega⟩]
    | .Regex r =>
      match rc r with
      | .error e => .error e
      | .ok m => .ok (paths.filter m)

/-- The selection loop of lib.rs lines 45 to 71, with the accumulated
selected paths made explicit. -/
def selectGo (rc : String → Except String (String → Bool)) (paths : List String) :
    List Selector → List String → Except String (List String)
  | [], acc => .ok acc
  | s :: ss, acc =>
    match applySelector rc s paths with
    | .error e => .error e
    | .ok r => selectGo rc paths ss (acc ++ r)

/-- SelectorGroup::select, lib.rs lines 44 to 74. -/
def SelectorGroup.select (rc : String → Except String (String → Bool))
    (g : SelectorGroup) (paths : List String) : Except String (List String) :=
  selectGo rc paths g.selectors []

/-- True exactly on the FromFront variant. -/
def Selector.isFromFront : Selector → Bool
  | .FromFront _ => true
  | _ => false

/-- The loop of SelectorGroup::highest_index, lib.rs lines 78 to 91, with the
running maximum made explicit. -/
def highestIndexAux : List Selector → Nat → Option Nat
  | [], acc => some acc
  | .FromFront o :: rest, acc => highestIndexAux rest (max o acc)
  | .All :: _, _ => none
  | .FromBack _ :: _, _ => none
  | .Regex _ :: _, _ => none

/-- SelectorGroup::highest_index, lib.rs lines 78 to 91.  none means the
whole candidate list is needed. -/
def SelectorGroup.highestIndex (g : SelectorGroup) : Option Nat :=
  highestIndexAux g.selectors 0

/-! ### Selector parsing (lib.rs lines 235 to 271) -/

/-- Parsing of one comma-separated selector token, lib.rs lines 239 to 268. -/
def parseSelToken (tok : List Char) : Except String Selector :=
  if tok = ['a'] then .ok .All
  else
    match tok with
    | '/' :: rest => .ok (.Regex (String.mk rest))
    | _ =>
      if tok = ['l'] then .ok (.FromBack 0)
      else
        match parseInt? tok with
        | none => .error ("Invalid selector: '" ++ String.mk tok ++ "'")
        | some i =>
          if i = 0 then .error "Selectors are 1-indexed and cannot be zero"
          else if i < 0 then .ok (.FromBack (i.natAbs - 1))
          else .ok (.FromFront (i.natAbs - 1))

/-- Expander::parse_selectors, lib.rs lines 235 to 271: trim, split on
commas, parse each token, first failure wins. -/
def parse_selectors (raw : String) : Except String SelectorGroup :=
  ((splitOnChar ',' (trimChars raw.data)).mapM parseSelToken).map SelectorGroup.mk

/-! ### Pattern parsing (lib.rs lines 280 to 333) -/

/-- The always-successful tail of parse_pattern once the input is known to be
nonempty, lib.rs lines 289 to 332: strip an optional percent or backslash
modifier, split on the caret into glob part and raw selector part (parts
after a second caret are silently dropped by the source), then split the
glob part at the first occurrence of the slash-star-star-slash delimiter,
applying the root and match-all-directories defaults. -/
def parsePatternOk (c : Char) (cs : List Char) : Bool × String × String × Option String :=
  let stripped : List Char × Bool :=
    if c = '%' then (cs, true)
    else if c = '\\' then (cs, false)
    else (c :: cs, false)
  let parts := splitOnChar '^' stripped.1
  let pat := parts.headD []
  let sels := parts.get? 1
  let split := splitFirstOn ['/', '*', '*', '/'] pat
  let epgp : List Char × List Char :=
    match split with
    | (glob, none) => (['.'], glob)
    | (e, some g) => (if e = [] then ['/'] else e, if g = [] then ['*', '/'] else g)
  (stripped.2, String.mk epgp.1, String.mk epgp.2, sels.map String.mk)

/-- Expander::parse_pattern on the text after the at sign, lib.rs lines 284
to 332.  The only failure is the empty-input check of line 284. -/
def parsePatternCore : List Char → Except String (Bool × String × String × Option String)
  | [] => .error "Empty pattern - nothing specified after '@' symbol"
  | c :: cs => .ok (parsePatternOk c cs)

/-- Expander::parse_pattern, lib.rs lines 280 to 333.  The leading at sign is
dropped on line 282. -/
def parse_pattern (pattern : String) : Except String (Bool × String × String × Option String) :=
  parsePatternCore (pattern.data.drop 1)

/-! ### Match fetching (lib.rs lines 96 to 224 and 452 to 466) -/

/-- get_repository_root, lib.rs lines 452 to 466: walk up from the current
directory until a .git or .svn marker exists.  The source loop is unbounded
and terminates because parent chains are finite; here the chain length is
bounded by explicit fuel supplied by the caller. -/
def get_repository_root (env : Env) : Nat → String → Except String String
  | 0, _ => .error "Cannot get repository root - this is not a git/svnc repo"
  | fuel + 1, cwd =>
    if env.pathExists (env.join cwd ".git") || env.pathExists (env.join cwd ".svn") then
      .ok cwd
    else
      match env.parent cwd with
      | some p => get_repository_root env fuel p
      | none => .error "Cannot get repository root - this is not a git/svnc repo"

/-- The filter_entry predicate of lib.rs lines 140 to 149: hidden entries,
whose name starts with a dot and is neither dot nor dot-dot, are pruned
unless search_hidden is set. -/
def hiddenMatcher (search_hidden : Bool) : Option String → Bool :=
  if search_hidden then fun _ => true
  else fun fileName =>
    let isHidden :=
      match fileName with
      | some s => startsWithStr "." s && !(s == ".") && !(s == "..")
      | none => false
    !isHidden

/-- Construction of one result path, lib.rs lines 198 to 205: strip a leading
dot-slash, join onto the entry point, and append a slash for directories. -/
def mkResult (env : Env) (ep pn : String) (m : Meta) : String :=
  let pn2 := stripPrefixStr "./" pn
  let r := env.join ep pn2
  if m.isDir then r ++ "/" else r

/-- The walk loop of lib.rs lines 187 to 218.  The Bool in the result is true
exactly when the loop exited through the early-termination return of line
210 (in which case the working directory is never restored); an error is the
metadata query failure propagated by the question mark on line 192 (which
also skips the restore). -/
def fetchLoop (env : Env) (glob : String → Bool) (mwd mwf : Bool) (ep : String)
    (quit : Option Nat) : List FsEntry → Nat → List String → (Except String Bool) × List String
  | [], _, acc => (.ok false, acc)
  | e :: es, idx, acc =>
    match e.pathName with
    | none => fetchLoop env glob mwd mwf ep quit es idx acc
    | some pn =>
      if glob pn then
        match e.meta with
        | .error msg => (.error msg, acc)
        | .ok m =>
          if (mwd && (mwf || m.isDir)) || (mwf && m.isFile) then
            let acc2 := acc ++ [mkResult env ep pn m]
            match quit with
            | some q =>
              if q = idx then (.ok true, acc2)
              else fetchLoop env glob mwd mwf ep quit es (idx + 1) acc2
            | none => fetchLoop env glob mwd mwf ep quit es idx acc2
          else fetchLoop env glob mwd mwf ep quit es idx acc
      else fetchLoop env glob mwd mwf ep quit es idx acc

/-- The matches a full walk of the given entries would produce, assuming no
metadata failures; used to characterise fetchLoop in the proofs. -/
def matchesOf (env : Env) (glob : String → Bool) (mwd mwf : Bool) (ep : String) :
    List FsEntry → List String
  | [] => []
  | e :: es =>
    match e.pathName with
    | none => matchesOf env glob mwd mwf ep es
    | some pn =>
      if glob pn then
        match e.meta with
        | .error _ => []
        | .ok m =>
          if (mwd && (mwf || m.isDir)) || (mwf && m.isFile) then
            mkResult env ep pn m :: matchesOf env glob mwd mwf ep es
          else matchesOf env glob mwd mwf ep es
      else matchesOf env glob mwd mwf ep es

/-- The quit_after_index computation of lib.rs lines 180 to 183. -/
def quitOf : Option SelectorGroup → Option Nat
  | some g => g.highestIndex
  | none => none

/-- The part of fetch_matches that runs before the working directory is
changed, lib.rs lines 117 to 177: trailing-slash handling, glob compilation,
tilde expansion, repository-root resolution, the existence check, and the
chdir target.  Returns the directory/file flags, the compiled glob, the
resolved entry point and the working directory after the chdir of line 177. -/
def fetchPre (env : Env) (cfg : Config) (frr : Bool) (entry_point pat cwd : String) :
    Except String (Bool × Bool × (String → Bool) × String × String) :=
  let trailing := pat.data.getLast? == some '/'
  let pat2 := if trailing then String.mk pat.data.dropLast else pat
  let mwf := if trailing then false else cfg.match_with_files
  if trailing && !cfg.match_with_dirs then
    .error "Matching is configured to only match with files, yet glob pattern ends with '/', implying a search for directories"
  else
    match env.globBuild ("./**/" ++ pat2) with
    | .error e => .error e
    | .ok glob =>
      let ep1 := env.tilde entry_point
      match
        (if frr then
          (get_repository_root env (cwd.data.length + 1) cwd).map
            (fun root => if ep1 == "." || ep1 == "/" then root else env.join root ep1)
        else .ok ep1) with
      | .error e => .error e
      | .ok ep2 =>
        if !env.pathExists ep2 then
          .error ("Entry point " ++ ep2 ++ " doesn't exist.")
        else .ok (cfg.match_with_dirs, mwf, glob, ep2, env.chdir cwd ep2)

/-- Expander::fetch_matches, lib.rs lines 96 to 224, with the process working
directory threaded as explicit state (second component of the result).  The
empty-pattern repository-root shortcut is lines 104 to 115.  After the walk,
the early-termination exit of line 210 and the error exit of line 192 leave
the working directory at the entry point, while the normal exit restores it
on line 221. -/
def fetch_matches (env : Env) (cfg : Config) (frr : Bool) (entry_point pat : String)
    (paths : List String) (sel : Option SelectorGroup) (cwd : String) :
    (Except String (List String)) × String :=
  if pat.data.isEmpty then
    if frr then
      match get_repository_root env (cwd.data.length + 1) cwd with
      | .ok root => (.ok (paths ++ [root]), cwd)
      | .error e => (.error e, cwd)
    else
      (.error "No glob pattern specified. Please see Lax's README for syntax", cwd)
  else
    match fetchPre env cfg frr entry_point pat cwd with
    | .error e => (.error e, cwd)
    | .ok (mwd, mwf, glob, ep2, cwd1) =>
      let quit := quitOf sel
      match fetchLoop env glob mwd mwf ep2 quit
          (env.walk cwd1 (hiddenMatcher cfg.search_hidden)) 0 paths with
      | (.error e, _) => (.error e, cwd1)
      | (.ok true, ps) => (.ok ps, cwd1)
      | (.ok false, ps) => (.ok ps, env.chdir cwd1 cwd)

/-! ### Pattern expansion (lib.rs lines 337 to 426) -/

/-- The interactive disambiguation loop of lib.rs lines 365 to 375, with the
callback replaced by a script of responses.  The result records the outcome
(none when the script ran out while the source loop would query again), the
first-call flags passed to the callback in order, and the unconsumed
responses.  A parse failure of a response is propagated by the question mark
on line 370 and therefore terminates the loop; only a failure of select
leads to another iteration. -/
def menuLoop (rc : String → Except String (String → Bool)) (paths : List String) :
    List String → Bool → Option (Except String (List String)) × List Bool × List String
  | [], _ => (none, [], [])
  | r :: rest, first =>
    match parse_selectors r with
    | .error e => (some (.error e), [first], rest)
    | .ok g =>
      match SelectorGroup.select rc g paths with
      | .ok sel => (some (.ok sel), [first], rest)
      | .error _ =>
        let next := menuLoop rc paths rest false
        (next.1, first :: next.2.1, next.2.2)

/-- Expander::expand_pattern, lib.rs lines 337 to 377.  Result components:
the expanded paths or error, the final working directory, the first-call
flags of the callback invocations, and the unconsumed scripted responses.
When the scripted responses run out the source would block querying the
callback forever; that case is reported as a distinguished error here. -/
def expand_pattern (env : Env) (cfg : Config) (responses : List String)
    (pattern : String) (cwd : String) :
    (Except String (List String)) × String × List Bool × List String :=
  match parse_pattern pattern with
  | .error e => (.error e, cwd, [], responses)
  | .ok (frr, ep, gp, rawSel) =>
    match
      (match rawSel with
      | none => Except.ok none
      | some s => (parse_selectors s).map some) with
    | .error e => (.error e, cwd, [], responses)
    | .ok selGroup =>
      match fetch_matches env cfg frr ep gp [] selGroup cwd with
      | (.error e, cwd2) => (.error e, cwd2, [], responses)
      | (.ok paths, cwd2) =>
        if paths.isEmpty then
          (.error ("Could not match pattern: \"" ++ gp ++ "\""), cwd2, [], responses)
        else
          match selGroup with
          | some g => (SelectorGroup.select env.regexCompile g paths, cwd2, [], responses)
          | none =>
            if paths.length == 1 then (.ok (paths.take 1), cwd2, [], responses)
            else
              let r := menuLoop env.regexCompile paths responses true
              match r.1 with
              | some res => (res, cwd2, r.2.1, r.2.2)
              | none => (.error "interactive loop still querying", cwd2, r.2.1, r.2.2)

/-- Expander::apply_post_transforms, lib.rs lines 383 to 402: when
configured, replace each non-directory result by the display form of its
parent path. -/
def apply_post_transforms (env : Env) (cfg : Config) (expanded : List String) :
    Except String (List String) :=
  if cfg.transform_files_to_dirs then
    expanded.mapM (fun path =>
      match env.metadata path with
      | .error e => .error e
      | .ok m =>
        if m.isDir then .ok path
        else
          match env.parent path with
          | some par => .ok par
          | none => .error ("Could not get parent of file: \"" ++ path ++ "\""))
  else .ok expanded

/-- The loop of Expander::expand_arguments, lib.rs lines 409 to 423, with the
accumulated transformed arguments explicit.  Results: transformed arguments
or first error, final working directory, unconsumed scripted responses. -/
def expandArgsGo (env : Env) (cfg : Config) :
    List String → List String → List String → String →
    (Except String (List String)) × String × List String
  | [], acc, responses, cwd => (.ok acc, cwd, responses)
  | arg :: rest, acc, responses, cwd =>
    if startsWithStr "@" arg then
      match expand_pattern env cfg responses arg cwd with
      | (.error e, cwd2, _, rem) => (.error e, cwd2, rem)
      | (.ok expanded, cwd2, _, rem) =>
        match apply_post_transforms env cfg expanded with
        | .error e => (.error e, cwd2, rem)
        | .ok transformed => expandArgsGo env cfg rest (acc ++ transformed) rem cwd2
    else
      let newArg := if startsWithStr "\\@" arg then String.mk (arg.data.drop 1) else arg
      expandArgsGo env cfg rest (acc ++ [newArg]) responses cwd

/-- Expander::expand_arguments, lib.rs lines 408 to 426. -/
def expand_arguments (env : Env) (cfg : Config) (responses : List String)
    (args : List String) (cwd : String) :
    (Except String (List String)) × String × List String :=
  expandArgsGo env cfg args [] responses cwd

/-! ### Concrete environments used by the claim-level theorems and witnesses -/

/-- A file entry as the walker reports it, used by the concrete environments. -/
def fileEntry (name path : String) : FsEntry :=
  { fileName := some name, pathName := some path, meta := .ok ⟨false, true⟩ }

/-- A trivial environment: empty walks, everything else inert. -/
def envTriv : Env :=
  { tilde := id
    join := fun a b => a ++ "/" ++ b
    pathExists := fun _ => true
    parent := fun _ => none
    chdir := fun c _ => c
    walk := fun _ _ => []
    globBuild := fun _ => .ok (fun _ => true)
    metadata := fun _ => .error "io error"
    regexCompile := fun _ => .error "regex error" }

/-- Environment for claim C1: a single file named foo below the entry point;
relative chdir targets resolve against the current directory. -/
def envC1 : Env :=
  { tilde := id
    join := fun a b => a ++ "/" ++ b
    pathExists := fun _ => true
    parent := fun _ => none
    chdir := fun c t => if startsWithStr "/" t then t else c ++ "/" ++ t
    walk := fun _ _ => [fileEntry "foo" "./foo"]
    globBuild := fun _ => .ok (fun s => s == "./foo")
    metadata := fun _ => .error "io error"
    regexCompile := fun _ => .error "regex error" }

/-- Environment for claim C3: two files match, forcing the interactive menu. -/
def envC3 : Env :=
  { tilde := id
    join := fun a b => if a == "." then "./" ++ b else a ++ "/" ++ b
    pathExists := fun _ => true
    parent := fun _ => none
    chdir := fun c t => if t == "." then c else if startsWithStr "/" t then t else c ++ "/" ++ t
    walk := fun _ _ => [fileEntry "foo1" "./foo1", fileEntry "foo2" "./foo2"]
    globBuild := fun _ => .ok (fun _ => true)
    metadata := fun _ => .error "io error"
    regexCompile := fun _ => .error "regex error" }

/-- Environment for claims C4 and C5: exactly one file matches. -/
def envC5 : Env :=
  { tilde := id
    join := fun a b => if a == "." then "./" ++ b else a ++ "/" ++ b
    pathExists := fun _ => true
    parent := fun _ => none
    chdir := fun c t => if t == "." then c else if startsWithStr "/" t then t else c ++ "/" ++ t
    walk := fun _ _ => [fileEntry "foo" "./foo"]
    globBuild := fun _ => .ok (fun _ => true)
    metadata := fun _ => .error "io error"
    regexCompile := fun _ => .error "regex error" }

/-- Environment for claim C8, mirroring the transform_file_to_parent test of
lib.rs lines 540 to 548: one source file whose parent directory is src. -/
def envC8 : Env :=
  { tilde := id
    join := fun a b => if a == "." then "./" ++ b else a ++ "/" ++ b
    pathExists := fun _ => true
    parent := fun p => if p == "./src/main.rs" then some "./src" else none
    chdir := fun c t => if t == "." then c else if startsWithStr "/" t then t else c ++ "/" ++ t
    walk := fun _ _ => [fileEntry "main.rs" "./src/main.rs"]
    globBuild := fun _ => .ok (fun s => s == "./src/main.rs")
    metadata := fun p =>
      if p == "./src/main.rs" then .ok ⟨false, true⟩
      else if p == "./src" then .ok ⟨true, false⟩
      else .error "io error"
    regexCompile := fun _ => .error "regex error" }

/-- The configuration of the transform_file_to_parent test: defaults with
transform_files_to_dirs switched on. -/
def cfgTransform : Config :=
  { match_with_dirs := true
    match_with_files := true
    transform_files_to_dirs := true
    search_hidden := false }

/-! ### Helper lemmas about the selector algebra -/

/-- Selection with an accumulator factors through selection from the empty
accumulator. -/
theorem selectGo_append (rc : String → Except String (String → Bool))
    (paths : List String) (ss : List Selector) (acc : List String) :
    selectGo rc paths ss acc = Except.map (fun r => acc ++ r) (selectGo rc paths ss []) := by
  induction ss generalizing acc with
  | nil => simp [selectGo, Except.map]
  | cons s ss ih =>
    simp only [selectGo]
    cases happ : applySelector rc s paths with
    | error e => simp [Except.map]
    | ok r =>
      dsimp only
      rw [ih (acc ++ r), ih ([] ++ r)]
      cases selectGo rc paths ss [] with
      | error e => simp [Except.map]
      | ok rs => simp [Except.map, List.append_assoc]

/-- Applying a selector group decomposes as: apply the head selector to the
original candidate list, then append the result of the rest of the group
applied to the same original list. -/
theorem select_cons (rc : String → Except String (String → Bool)) (s : Selector)
    (ss : List Selector) (paths : List String) :
    SelectorGroup.select rc ⟨s :: ss⟩ paths =
      match applySelector rc s paths with
      | .error e => .error e
      | .ok r => Except.map (fun rs => r ++ rs) (SelectorGroup.select rc ⟨ss⟩ paths) := by
  simp only [SelectorGroup.select, selectGo]
  cases happ : applySelector rc s paths with
  | error e => rfl
  | ok r =>
    dsimp only
    rw [List.nil_append, selectGo_append rc paths ss r]

/-- A FromFront selector with offset at most hmax behaves the same on the
first hmax plus one candidates as on the whole candidate list. -/
theorem applySelector_fromFront_take (rc : String → Except String (String → Bool))
    (o hmax : Nat) (ho : o ≤ hmax) (l : List String) :
    applySelector rc (Selector.FromFront o) (l.take (hmax + 1)) =
      applySelector rc (Selector.FromFront o) l := by
  have hie : (l.take (hmax + 1)).isEmpty = l.isEmpty := by cases l <;> simp
  simp only [applySelector, hie]
  by_cases he : l.isEmpty = true
  · simp [he]
  · simp only [he, if_false]
    by_cases hc : l.length ≤ o
    · have hc2 : (l.take (hmax + 1)).length ≤ o := by
        rw [List.length_take]; omega
      rw [dif_pos hc2, dif_pos hc]
    · have hc2 : ¬ ((l.take (hmax + 1)).length ≤ o) := by
        rw [List.length_take]; omega
      rw [dif_neg hc2, dif_neg hc]
      simp [List.get_eq_getElem]

/-- A group whose selectors are all FromFront with offsets at most hmax
selects the same paths from the first hmax plus one candidates as from the
whole candidate list. -/
theorem select_take_of_bounds (rc : String → Except String (String → Bool)) (hmax : Nat) :
    ∀ (ss : List Selector),
      (∀ s ∈ ss, ∃ o, s = Selector.FromFront o ∧ o ≤ hmax) →
      ∀ l : List String,
        SelectorGroup.select rc ⟨ss⟩ (l.take (hmax + 1)) = SelectorGroup.select rc ⟨ss⟩ l := by
  intro ss
  induction ss with
  | nil => intro _ l; rfl
  | cons s ss ih =>
    intro hsel l
    obtain ⟨o, hs, hol⟩ := hsel s (List.mem_cons_self s ss)
    subst hs
    rw [select_cons, select_cons, applySelector_fromFront_take rc o hmax hol l,
      ih (fun t ht => hsel t (List.mem_cons_of_mem _ ht)) l]

/-- highest_index is defined exactly when every selector is FromFront. -/
theorem highestIndexAux_isSome (l : List Selector) (acc : Nat) :
    (highestIndexAux l acc).isSome = l.all Selector.isFromFront := by
  induction l generalizing acc with
  | nil => rfl
  | cons s ss ih => cases s <;> simp [highestIndexAux, Selector.isFromFront, ih]

/-- When highest_index returns a value, every selector in the group is a
FromFront whose offset is bounded by that value. -/
theorem highestIndexAux_bounds (l : List Selector) (acc h : Nat)
    (hh : highestIndexAux l acc = some h) :
    acc ≤ h ∧ ∀ s ∈ l, ∃ o, s = Selector.FromFront o ∧ o ≤ h := by
  induction l generalizing acc with
  | nil =>
    simp only [highestIndexAux, Option.some.injEq] at hh
    subst hh
    exact ⟨Nat.le_refl _, by simp⟩
  | cons s ss ih =>
    cases s with
    | FromFront o =>
      simp only [highestIndexAux] at hh
      obtain ⟨hacc, hrest⟩ := ih (max o acc) hh
      refine ⟨Nat.le_trans (Nat.le_max_right o acc) hacc, ?_⟩
      intro t ht
      rcases List.mem_cons.mp ht with rfl | ht2
      · exact ⟨o, rfl, Nat.le_trans (Nat.le_max_left o acc) hacc⟩
      · exact hrest t ht2
    | All => simp [highestIndexAux] at hh
    | FromBack o => simp [highestIndexAux] at hh
    | Regex r => simp [highestIndexAux] at hh

/-! ### Helper lemmas about the walk loop -/

/-- With no quit index and no metadata failures, the walk loop appends
exactly the full list of matches. -/
theorem fetchLoop_none_eq (env : Env) (glob : String → Bool) (mwd mwf : Bool) (ep : String) :
    ∀ (es : List FsEntry), (∀ e ∈ es, (e.meta).isOk = true) → ∀ (idx : Nat) (acc : List String),
      fetchLoop env glob mwd mwf ep none es idx acc =
        (.ok false, acc ++ matchesOf env glob mwd mwf ep es) := by
  intro es
  induction es with
  | nil => intro _ idx acc; simp [fetchLoop, matchesOf]
  | cons e es ih =>
    intro hm idx acc
    have hmtail : ∀ x ∈ es, (x.meta).isOk = true := fun x hx => hm x (List.mem_cons_of_mem e hx)
    cases hpn : e.pathName with
    | none => simp [fetchLoop, matchesOf, hpn, ih hmtail]
    | some pn =>
      by_cases hg : glob pn
      · cases hmeta : e.meta with
        | error msg =>
          exfalso
          have hx := hm e (List.mem_cons_self e es)
          rw [hmeta] at hx
          simp [Except.isOk, Except.toBool] at hx
        | ok m =>
          by_cases hmatch : ((mwd && (mwf || m.isDir)) || (mwf && m.isFile)) = true
          · simp [fetchLoop, matchesOf, hpn, hg, hmeta, hmatch, ih hmtail,
              List.append_assoc]
          · simp [fetchLoop, matchesOf, hpn, hg, hmeta, hmatch, ih hmtail]
      · simp [fetchLoop, matchesOf, hpn, hg, ih hmtail]

/-- With quit index q and no metadata failures, the walk loop started at
index idx at most q appends exactly the first q plus one minus idx matches,
and reports early termination exactly when that many matches exist. -/
theorem fetchLoop_some_eq (env : Env) (glob : String → Bool) (mwd mwf : Bool) (ep : String)
    (q : Nat) :
    ∀ (es : List FsEntry), (∀ e ∈ es, (e.meta).isOk = true) →
      ∀ (idx : Nat) (acc : List String), idx ≤ q →
      fetchLoop env glob mwd mwf ep (some q) es idx acc =
        (.ok (decide (q + 1 - idx ≤ (matchesOf env glob mwd mwf ep es).length)),
          acc ++ (matchesOf env glob mwd mwf ep es).take (q + 1 - idx)) := by
  intro es
  induction es with
  | nil =>
    intro _ idx acc hle
    have hne : ¬ (q + 1 - idx ≤ 0) := by omega
    simp [fetchLoop, matchesOf, hne]
  | cons e es ih =>
    intro hm idx acc hle
    have hmtail : ∀ x ∈ es, (x.meta).isOk = true := fun x hx => hm x (List.mem_cons_of_mem e hx)
    cases hpn : e.pathName with
    | none => simp [fetchLoop, matchesOf, hpn, ih hmtail idx acc hle]
    | some pn =>
      by_cases hg : glob pn
      · cases hmeta : e.meta with
        | error msg =>
          exfalso
          have hx := hm e (List.mem_cons_self e es)
          rw [hmeta] at hx
          simp [Except.isOk, Except.toBool] at hx
        | ok m =>
          by_cases hmatch : ((mwd && (mwf || m.isDir)) || (mwf && m.isFile)) = true
          · by_cases hq : q = idx
            · subst hq
              have h1 : q + 1 - q = 1 := by omega
              simp [fetchLoop, matchesOf, hpn, hg, hmeta, hmatch, h1, List.take_succ_cons]
            · have hlt : idx + 1 ≤ q := by omega
              have h2 : q + 1 - idx = (q - idx) + 1 := by omega
              have h3 : q + 1 - (idx + 1) = q - idx := by omega
              simp only [fetchLoop, matchesOf, hpn, hg, hmeta, hmatch, if_true, hq, if_false]
              rw [ih hmtail (idx + 1) (acc ++ [mkResult env ep pn m]) hlt]
              rw [h2, h3, List.take_succ_cons]
              simp only [Prod.mk.injEq, Except.ok.injEq]
              constructor
              · simp only [List.length_cons, decide_eq_decide]
                omega
              · simp [List.append_assoc]
          · simp [fetchLoop, matchesOf, hpn, hg, hmeta, hmatch, ih hmtail idx acc hle]
      · simp [fetchLoop, matchesOf, hpn, hg, ih hmtail idx acc hle]

/-- The walk loop without a quit index never reports early termination. -/
theorem fetchLoop_none_ne_early (env : Env) (glob : String → Bool) (mwd mwf : Bool)
    (ep : String) :
    ∀ (es : List FsEntry) (idx : Nat) (acc : List String),
      (fetchLoop env glob mwd mwf ep none es idx acc).1 ≠ Except.ok true := by
  intro es
  induction es with
  | nil => intro idx acc; simp [fetchLoop]
  | cons e es ih =>
    intro idx acc
    cases hpn : e.pathName with
    | none => simpa [fetchLoop, hpn] using ih idx acc
    | some pn =>
      by_cases hg : glob pn
      · cases hmeta : e.meta with
        | error msg => simp [fetchLoop, hpn, hg, hmeta]
        | ok m =>
          by_cases hmatch : ((mwd && (mwf || m.isDir)) || (mwf && m.isFile)) = true
          · simpa [fetchLoop, hpn, hg, hmeta, hmatch] using ih idx _
          · simpa [fetchLoop, hpn, hg, hmeta, hmatch] using ih idx acc
      · simpa [fetchLoop, hpn, hg] using ih idx acc

/-- fetch_matches depends on the selector group only through the
quit_after_index it induces. -/
theorem fetch_matches_quit_congr (env : Env) (cfg : Config) (frr : Bool)
    (ep pat cwd : String) (paths : List String) (sel1 sel2 : Option SelectorGroup)
    (h : quitOf sel1 = quitOf sel2) :
    fetch_matches env cfg frr ep pat paths sel1 cwd =
      fetch_matches env cfg frr ep pat paths sel2 cwd := by
  simp only [fetch_matches, h]

/-! ### Helper lemmas about string parsing -/

/-- dropWhile is the identity when no element satisfies the predicate. -/
theorem dropWhile_eq_self_of_all (p : Char → Bool) (l : List Char)
    (h : ∀ c ∈ l, p c = false) : l.dropWhile p = l := by
  cases l with
  | nil => rfl
  | cons c cs =>
    rw [List.dropWhile_cons, h c (List.mem_cons_self c cs)]
    simp

/-- Trimming is the identity on whitespace-free text. -/
theorem trimChars_eq_self (l : List Char) (h : ∀ c ∈ l, c.isWhitespace = false) :
    trimChars l = l := by
  rw [trimChars, dropWhile_eq_self_of_all _ l h,
    dropWhile_eq_self_of_all _ l.reverse (fun c hc => h c (List.mem_reverse.mp hc)),
    List.reverse_reverse]

/-- Splitting on a separator that does not occur yields the single whole
piece. -/
theorem splitOnChar_no_sep (sep : Char) (l : List Char) (h : ∀ c ∈ l, ¬ (c = sep)) :
    splitOnChar sep l = [l] := by
  induction l with
  | nil => rfl
  | cons c cs ih =>
    rw [splitOnChar, if_neg (h c (List.mem_cons_self c cs)),
      ih (fun x hx => h x (List.mem_cons_of_mem c hx))]

/-- The no-at-sign arguments of expand_arguments pass through unchanged. -/
theorem expandArgsGo_no_at (env : Env) (cfg : Config) (responses : List String)
    (cwd : String) :
    ∀ (args : List String),
      (∀ a ∈ args, startsWithStr "@" a = false ∧ startsWithStr "\\@" a = false) →
      ∀ acc : List String,
        expandArgsGo env cfg args acc responses cwd = (.ok (acc ++ args), cwd, responses) := by
  intro args
  induction args with
  | nil => intro _ acc; simp [expandArgsGo]
  | cons a rest ih =>
    intro h acc
    have ha := h a (List.mem_cons_self a rest)
    rw [expandArgsGo]
    rw [ha.1]
    simp only [Bool.false_eq_true, if_false, ha.2]
    rw [ih (fun x hx => h x (List.mem_cons_of_mem a hx)) (acc ++ [a])]
    simp

/-! ### Claim theorems -/

/-- Claim C1.  The claim states that fetch_matches restores the original
working directory on every exit path.  The code does not: the
early-termination return of lib.rs line 210 exits while the working
directory is still the entry point.  Concretely, a fetch from entry point
sub with the FromFront selector group for index 0 succeeds through the early
return and leaves the working directory at /home/sub instead of the original
/home, whereas the same fetch with no selector group runs the full walk and
does restore /home. -/
theorem lax_c1_cwd_not_restored :
    fetch_matches envC1 Config.default false "sub" "foo" []
        (some ⟨[Selector.FromFront 0]⟩) "/home" = (.ok ["sub/foo"], "/home/sub")
    ∧ (fetch_matches envC1 Config.default false "sub" "foo" [] none "/home").2 = "/home"
    ∧ "/home/sub" ≠ "/home" := ⟨rfl, rfl, by decide⟩

/-- Claim C2, counterexample.  The claim states that parse_pattern fails
when the token contains more than one caret; on the token with two carets it
instead succeeds, keeping the text between the first and second caret as the
selector string and silently discarding the rest. -/
theorem lax_c2_counterexample :
    parse_pattern "@a^b^c" = .ok (false, ".", "a", some "b")
    ∧ (parse_pattern "@a^b^c").isOk = true := ⟨rfl, rfl⟩

/-- Claim C2, amended.  parse_pattern fails exactly when the input is empty
after the leading at sign; a token with more than one caret is not an error:
the selector part is the text between the first and second caret and
anything after a second caret is discarded. -/
theorem lax_c2_amended :
    (∀ p : String, (parse_pattern ("@" ++ p)).isOk = true ↔ p ≠ "")
    ∧ parse_pattern "@a^b^c" = .ok (false, ".", "a", some "b") := by
  refine ⟨?_, rfl⟩
  intro p
  obtain ⟨d⟩ := p
  have hd : (("@" : String) ++ ⟨d⟩).data = '@' :: d := rfl
  rw [parse_pattern, hd]
  cases d with
  | nil =>
    simp [parsePatternCore, Except.isOk, Except.toBool, String.ext_iff]
  | cons c cs =>
    simp [parsePatternCore, Except.isOk, Except.toBool, String.ext_iff]

/-- Witness for the amended claim C2 at the concrete input fish. -/
theorem lax_c2_amended_witness : (parse_pattern ("@" ++ "fish")).isOk = true :=
  (lax_c2_amended.1 "fish").mpr (by decide)

/-- Claim C3.  The claim (and the documentation comment of selector_menu in
lib.rs) states that the interactive loop re-queries the callback after a
selector parse error as well as after a range error.  In the code the parse
error is propagated by the question mark of lib.rs line 370 and terminates
the expansion: with two candidates and scripted responses xyz then 1, the
expansion stops with the invalid-selector error after a single callback
invocation, leaving the second response unconsumed; by contrast the
out-of-range response 5 is retried, the callback is invoked again with the
first-call flag false, and the expansion succeeds. -/
theorem lax_c3_parse_error_terminates :
    expand_pattern envC3 Config.default ["xyz", "1"] "@foo*" "/w"
      = (.error "Invalid selector: 'xyz'", "/w", [true], ["1"])
    ∧ expand_pattern envC3 Config.default ["5", "1"] "@foo*" "/w"
      = (.ok ["./foo1"], "/w", [true, false], []) := ⟨rfl, rfl⟩

/-- Claim C4.  For any selector group, running fetch_matches with the group
(which enables the early-termination optimization through highest_index)
followed by selection gives the same outcome as a full walk (fetch_matches
with no group) followed by selection, provided the walk itself produces no
metadata errors; moreover highest_index is defined exactly when every
selector is a FromFront variant, and a walk without a quit index never takes
the early-termination exit. -/
theorem lax_c4_early_termination (env : Env) (cfg : Config)
    (rc : String → Except String (String → Bool)) (frr : Bool) (ep pat cwd : String)
    (g : SelectorGroup)
    (hm : ∀ (d : String) (mtr : Option String → Bool) (e : FsEntry),
      e ∈ env.walk d mtr → (e.meta).isOk = true) :
    Except.bind (fetch_matches env cfg frr ep pat [] (some g) cwd).1
        (SelectorGroup.select rc g) =
      Except.bind (fetch_matches env cfg frr ep pat [] none cwd).1
        (SelectorGroup.select rc g)
    ∧ (g.highestIndex).isSome = g.selectors.all Selector.isFromFront
    ∧ ∀ (glob : String → Bool) (mwd mwf : Bool) (ep2 : String) (es : List FsEntry)
        (idx : Nat) (acc : List String),
        (fetchLoop env glob mwd mwf ep2 none es idx acc).1 ≠ Except.ok true := by
  refine ⟨?_, highestIndexAux_isSome g.selectors 0,
    fun glob mwd mwf ep2 es idx acc => fetchLoop_none_ne_early env glob mwd mwf ep2 es idx acc⟩
  by_cases hall : g.selectors.all Selector.isFromFront = true
  · obtain ⟨h, hh⟩ : ∃ h, g.highestIndex = some h := by
      have hs := highestIndexAux_isSome g.selectors 0
      rw [hall] at hs
      cases hx : highestIndexAux g.selectors 0 with
      | none => rw [hx] at hs; simp at hs
      | some v => exact ⟨v, hx⟩
    have hbounds := highestIndexAux_bounds g.selectors 0 h hh
    by_cases hpat : pat.data.isEmpty = true
    · simp [fetch_matches, hpat]
    · cases hpre : fetchPre env cfg frr ep pat cwd with
      | error e => simp [fetch_matches, hpat, hpre]
      | ok tup =>
        obtain ⟨mwd, mwf, glob, ep2, cwd1⟩ := tup
        have hme : ∀ e ∈ env.walk cwd1 (hiddenMatcher cfg.search_hidden), (e.meta).isOk = true :=
          fun e he => hm _ _ e he
        simp only [fetch_matches, hpat, if_false, hpre, quitOf, hh]
        rw [fetchLoop_some_eq env glob mwd mwf ep2 h _ hme 0 [] (Nat.zero_le h),
          fetchLoop_none_eq env glob mwd mwf ep2 _ hme 0 []]
        simp only [List.nil_append, Nat.sub_zero]
        cases decide (h + 1 ≤ (matchesOf env glob mwd mwf ep2
            (env.walk cwd1 (hiddenMatcher cfg.search_hidden))).length) with
        | true =>
          dsimp only [Except.bind]
          exact select_take_of_bounds rc h g.selectors hbounds.2 _
        | false =>
          dsimp only [Except.bind]
          exact select_take_of_bounds rc h g.selectors hbounds.2 _
  · have hnone : g.highestIndex = none := by
      have hs := highestIndexAux_isSome g.selectors 0
      cases hx : highestIndexAux g.selectors 0 with
      | none => exact hx
      | some v =>
        rw [hx] at hs
        simp only [Option.isSome_some] at hs
        exact absurd hs.symm hall
    rw [fetch_matches_quit_congr env cfg frr ep pat cwd [] (some g) none
      (by simp [quitOf, hnone])]

/-- Witness for claim C4 at a concrete environment with one matching file
and the FromFront selector group for index 0. -/
theorem lax_c4_early_termination_witness :
    (Except.bind (fetch_matches envC5 Config.default false "." "foo" []
          (some ⟨[Selector.FromFront 0]⟩) "/w").1
        (SelectorGroup.select envC5.regexCompile ⟨[Selector.FromFront 0]⟩)
      = Except.bind (fetch_matches envC5 Config.default false "." "foo" [] none "/w").1
        (SelectorGroup.select envC5.regexCompile ⟨[Selector.FromFront 0]⟩))
    ∧ ((⟨[Selector.FromFront 0]⟩ : SelectorGroup).highestIndex).isSome
        = (⟨[Selector.FromFront 0]⟩ : SelectorGroup).selectors.all Selector.isFromFront
    ∧ ∀ (glob : String → Bool) (mwd mwf : Bool) (ep2 : String) (es : List FsEntry)
        (idx : Nat) (acc : List String),
        (fetchLoop envC5 glob mwd mwf ep2 none es idx acc).1 ≠ Except.ok true :=
  lax_c4_early_termination envC5 Config.default envC5.regexCompile false "." "foo" "/w"
    ⟨[Selector.FromFront 0]⟩
    (by
      intro d mtr e he
      cases he with
      | head => rfl
      | tail _ h2 => cases h2)

/-- Claim C5, counterexample.  The claim quantifies over all patterns with
exactly one filesystem match; the pattern with glob foo and selector 2 has
exactly one filesystem match (first conjunct) yet its expansion is an
out-of-range error rather than that one path (second conjunct). -/
theorem lax_c5_counterexample :
    (fetch_matches envC5 Config.default false "." "foo" [] none "/w").1 = .ok ["./foo"]
    ∧ (expand_pattern envC5 Config.default [] "@foo^2" "/w").1
        = .error "Selector index out of range: 2" := ⟨rfl, rfl⟩

/-- Claim C5, amended.  For every pattern that parses with no selector group
and whose fetch produces exactly one match, expansion returns exactly that
one path and the interactive callback is never invoked (the recorded list of
callback invocations is empty). -/
theorem lax_c5_amended (env : Env) (cfg : Config) (responses : List String)
    (pattern cwd : String) (frr : Bool) (ep gp p : String)
    (h1 : parse_pattern pattern = .ok (frr, ep, gp, none))
    (h2 : (fetch_matches env cfg frr ep gp [] none cwd).1 = .ok [p]) :
    (expand_pattern env cfg responses pattern cwd).1 = .ok [p]
    ∧ (expand_pattern env cfg responses pattern cwd).2.2.1 = [] := by
  rcases hx : fetch_matches env cfg frr ep gp [] none cwd with ⟨r, cwd2⟩
  rw [hx] at h2
  simp only at h2
  subst h2
  simp [expand_pattern, h1, hx]

/-- Witness for the amended claim C5 at a concrete single-match environment. -/
theorem lax_c5_amended_witness :
    (expand_pattern envC5 Config.default [] "@foo" "/w").1 = .ok ["./foo"]
    ∧ (expand_pattern envC5 Config.default [] "@foo" "/w").2.2.1 = [] :=
  lax_c5_amended envC5 Config.default [] "@foo" "/w" false "." "foo" "./foo" rfl rfl

/-- Claim C6.  parse_pattern maps the four spec vectors exactly as stated,
and (supporting the reading that only the first delimiter splits) a token
with two delimiters keeps the second one inside the glob part. -/
theorem lax_c6_parse_vectors :
    parse_pattern "@fish" = .ok (false, ".", "fish", none)
    ∧ parse_pattern "@fish^tail" = .ok (false, ".", "fish", some "tail")
    ∧ parse_pattern "@%head/**/fish^tail" = .ok (true, "head", "fish", some "tail")
    ∧ parse_pattern "@head/**/" = .ok (false, "head", "*/", none)
    ∧ parse_pattern "@head/**/fish/**/tail" = .ok (false, "head", "fish/**/tail", none) :=
  ⟨rfl, rfl, rfl, rfl, rfl⟩

/-- Claim C7.  Selector application decomposes selector by selector against
the original unmodified candidate list (first conjunct), and on the
candidate list a, b, c the selectors minus one, minus three, four, zero and
the repeated selector one-comma-one behave exactly as the spec states. -/
theorem lax_c7_selector_algebra :
    (∀ (rc : String → Except String (String → Bool)) (s : Selector)
        (ss : List Selector) (paths : List String),
      SelectorGroup.select rc ⟨s :: ss⟩ paths =
        match applySelector rc s paths with
        | .error e => .error e
        | .ok r => Except.map (fun rs => r ++ rs) (SelectorGroup.select rc ⟨ss⟩ paths))
    ∧ parse_selectors "-1" = .ok ⟨[Selector.FromBack 0]⟩
    ∧ parse_selectors "-3" = .ok ⟨[Selector.FromBack 2]⟩
    ∧ parse_selectors "4" = .ok ⟨[Selector.FromFront 3]⟩
    ∧ parse_selectors "0" = .error "Selectors are 1-indexed and cannot be zero"
    ∧ parse_selectors "-0" = .error "Selectors are 1-indexed and cannot be zero"
    ∧ parse_selectors "1,1" = .ok ⟨[Selector.FromFront 0, Selector.FromFront 0]⟩
    ∧ (∀ rc, SelectorGroup.select rc ⟨[Selector.FromBack 0]⟩ ["a", "b", "c"] = .ok ["c"])
    ∧ (∀ rc, SelectorGroup.select rc ⟨[Selector.FromBack 2]⟩ ["a", "b", "c"] = .ok ["a"])
    ∧ (∀ rc, SelectorGroup.select rc ⟨[Selector.FromFront 3]⟩ ["a", "b", "c"]
        = .error "Selector index out of range: 4")
    ∧ (∀ rc, SelectorGroup.select rc ⟨[Selector.FromFront 0, Selector.FromFront 0]⟩
        ["a", "b", "c"] = .ok ["a", "a"]) :=
  ⟨select_cons, rfl, rfl, rfl, rfl, rfl, rfl,
    fun _ => rfl, fun _ => rfl, fun _ => rfl, fun _ => rfl⟩

/-- Claim C8, counterexample.  The claim states that in the final result
list every path naming a directory carries a trailing separator in every
configuration, including with transform_files_to_dirs enabled.  In the
configuration of the transform_file_to_parent test of lib.rs the final
result is the parent directory string without a trailing separator, even
though it names a directory. -/
theorem lax_c8_counterexample :
    expand_arguments envC8 cfgTransform [] ["@main.rs^1"] "/w" = (.ok ["./src"], "/w", [])
    ∧ envC8.metadata "./src" = .ok ⟨true, false⟩
    ∧ "./src".data.getLast? ≠ some '/' := ⟨rfl, rfl, by decide⟩

/-- Claim C8, amended.  Directory results produced by the walk itself always
carry a trailing separator (first conjunct), but when
transform_files_to_dirs replaces a file result by its parent directory the
resulting string carries no trailing separator, as in the repository test
expecting dot-slash-src. -/
theorem lax_c8_amended :
    (∀ (env : Env) (ep pn : String) (m : Meta), m.isDir = true →
        (mkResult env ep pn m).data.getLast? = some '/')
    ∧ apply_post_transforms envC8 cfgTransform ["./src/main.rs"] = .ok ["./src"]
    ∧ envC8.metadata "./src" = .ok ⟨true, false⟩
    ∧ "./src".data.getLast? ≠ some '/' := by
  refine ⟨?_, rfl, rfl, by decide⟩
  intro env ep pn m hdir
  simp only [mkResult, hdir, if_true]
  rw [String.data_append]
  exact List.getLast?_concat _

/-- Witness for the amended claim C8 on a concrete directory entry. -/
theorem lax_c8_amended_witness :
    (mkResult envTriv "." "x" ⟨true, false⟩).data.getLast? = some '/' :=
  lax_c8_amended.1 envTriv "." "x" ⟨true, false⟩ rfl

/-- Claim C9, counterexample.  The argument backslash-at-foo does not begin
with the at sign, yet expand_arguments rewrites it to at-foo, so the claimed
idempotence on at-free argument lists fails. -/
theorem lax_c9_counterexample :
    expand_arguments envTriv Config.default [] ["\\@foo"] "/w" = (.ok ["@foo"], "/w", [])
    ∧ startsWithStr "@" "\\@foo" = false
    ∧ (["@foo"] : List String) ≠ ["\\@foo"] := ⟨rfl, rfl, by decide⟩

/-- Claim C9, amended.  expand_arguments returns an argument list unchanged
whenever no element begins with the at sign and no element begins with the
backslash-at escape sequence. -/
theorem lax_c9_amended (env : Env) (cfg : Config) (responses : List String)
    (args : List String) (cwd : String)
    (h : ∀ a ∈ args, startsWithStr "@" a = false ∧ startsWithStr "\\@" a = false) :
    expand_arguments env cfg responses args cwd = (.ok args, cwd, responses) := by
  rw [expand_arguments, expandArgsGo_no_at env cfg responses cwd args h []]
  simp

/-- Witness for the amended claim C9 at a concrete escape-free list. -/
theorem lax_c9_amended_witness :
    expand_arguments envTriv Config.default [] ["foo", "-x"] "/w" =
      (.ok ["foo", "-x"], "/w", []) :=
  lax_c9_amended envTriv Config.default [] ["foo", "-x"] "/w" (by decide)

/-- Claim C10.  Every comma-free and whitespace-free token beginning with a
slash parses as a Regex selector without any validation of the regex text
(first conjunct); when the regex engine later rejects the text, the error
surfaces at application time through select (second conjunct); in
particular the malformed regex consisting of a lone open parenthesis parses
successfully (third conjunct). -/
theorem lax_c10_regex_unvalidated :
    (∀ rest : String, (∀ c ∈ rest.data, ¬ (c = ',') ∧ c.isWhitespace = false) →
        parse_selectors ("/" ++ rest) = .ok ⟨[Selector.Regex rest]⟩)
    ∧ (∀ (rc : String → Except String (String → Bool)) (e : String),
        rc "(" = .error e →
        SelectorGroup.select rc ⟨[Selector.Regex "("]⟩ ["a"] = .error e)
    ∧ parse_selectors "/(" = .ok ⟨[Selector.Regex "("]⟩ := by
  refine ⟨?_, ?_, rfl⟩
  · intro rest h
    obtain ⟨d⟩ := rest
    have hd : (("/" : String) ++ ⟨d⟩).data = '/' :: d := rfl
    rw [parse_selectors, hd]
    rw [trimChars_eq_self ('/' :: d) ?hws, splitOnChar_no_sep ',' ('/' :: d) ?hcm]
    case hws =>
      intro c hc
      rcases List.mem_cons.mp hc with rfl | hc2
      · decide
      · exact (h c hc2).2
    case hcm =>
      intro c hc
      rcases List.mem_cons.mp hc with rfl | hc2
      · decide
      · exact (h c hc2).1
    have htok : parseSelToken ('/' :: d) = .ok (Selector.Regex ⟨d⟩) := by
      rw [parseSelToken, if_neg ?hna]
      case hna =>
        intro hEq
        injection hEq with h1 _
        exact absurd h1 (by decide)
    rw [List.mapM_cons, htok, List.mapM_nil]
    rfl
  · intro rc e hrc
    simp only [SelectorGroup.select, selectGo, applySelector, hrc]
    rfl

/-- Witness for claim C10 at the concrete malformed regex text. -/
theorem lax_c10_regex_unvalidated_witness :
    parse_selectors ("/" ++ "(") = .ok ⟨[Selector.Regex "("]⟩
    ∧ SelectorGroup.select (fun _ => .error "bad regex") ⟨[Selector.Regex "("]⟩ ["a"]
        = .error "bad regex" :=
  ⟨lax_c10_regex_unvalidated.1 "(" (by decide),
    lax_c10_regex_unvalidated.2.1 (fun _ => .error "bad regex") "bad regex" rfl⟩
